import Mathlib

/-!
Verification of the AutoBookmark pipeline (working_sheet_extractor_py.py).

The development shallowly embeds the core functions of the source file:
the title-sanitization rules (which live only in the extraction-service
instruction text, hence are modelled from the spec), the Ghostscript
image collection and numeric sort of `pdf_to_images`, the response
parsing of `generate_bookmarks_ai`, the bookmark compilation of
`convert_ai_response_to_pdftk`, the success criterion of
`apply_bookmarks`, and the try/except/finally orchestration of
`process_pdf_workflow`.  Strings are embedded as `String` or as lists
of ASCII codes (`List Nat`) where character arithmetic matters.
-/

namespace AutoBookmark

/-! ## Title sanitization (spec-modelled)

The repository applies the sanitization rules only through the
instruction text `AppConfig.GEMINI_SYSTEM_PROMPT_TEMPLATE`; no Python
function implements them.  The definitions below are therefore modelled
from the spec. -/

/-- ASCII lowercasing of one character code (`A`..`Z` map to `a`..`z`). -/
def lowerCode (n : Nat) : Nat := if 65 ≤ n ∧ n ≤ 90 then n + 32 else n

/-- ASCII uppercasing of one character code (`a`..`z` map to `A`..`Z`). -/
def upperCode (n : Nat) : Nat := if 97 ≤ n ∧ n ≤ 122 then n - 32 else n

/-- Character codes that may appear in a sanitized title: letters,
digits, space (32) and hyphen (45). -/
def keptCode (n : Nat) : Bool :=
  decide ((65 ≤ n ∧ n ≤ 90) ∨ (97 ≤ n ∧ n ≤ 122) ∨ (48 ≤ n ∧ n ≤ 57) ∨ n = 32 ∨ n = 45)

/-- Modelled from the spec: the character-level sanitization rules of
section 4.1 (the repository has no code-level sanitizer; the rules are
stated in the extraction-service instruction text).  Slash (47) and
backslash (92) become hyphen (45); ampersand (38) becomes the word
"and"; letters, digits, space and hyphen are kept; every other symbol
(comma, period, hash, brackets, parentheses, braces, ...) is deleted
while surrounding text is preserved. -/
def cleanCode (n : Nat) : List Nat :=
  if n = 47 ∨ n = 92 then [45]
  else if n = 38 then [97, 110, 100]
  else if keptCode n then [n]
  else []

/-- Apply `cleanCode` across a whole title. -/
def cleanCodes (l : List Nat) : List Nat := l.flatMap cleanCode

/-- Split a title into words at space characters (code 32). -/
def splitWords : List Nat → List (List Nat)
  | [] => [[]]
  | c :: cs =>
    if c = 32 then [] :: splitWords cs
    else (c :: (splitWords cs).headI) :: (splitWords cs).tail

/-- Join words back with single spaces. -/
def unwords : List (List Nat) → List Nat
  | [] => []
  | [w] => w
  | w :: ws => w ++ 32 :: unwords ws

/-- Connective words that stay lowercase in Title Case ("and", "of"),
as exhibited by the spec examples "2 and 3" and "1 of 6". -/
def smallWords : List (List Nat) := [[97, 110, 100], [111, 102]]

/-- Lowercase an entire word. -/
def lowerWord (w : List Nat) : List Nat := w.map lowerCode

/-- Uppercase the first character of a word. -/
def capWord : List Nat → List Nat
  | [] => []
  | c :: cs => upperCode c :: cs

/-- Modelled from the spec: Title Case for one word — lowercase the
word, then capitalize its first character unless it is a connective
word. -/
def titleWord (w : List Nat) : List Nat :=
  if lowerWord w ∈ smallWords then lowerWord w else capWord (lowerWord w)

/-- Modelled from the spec: full sanitization of a title given as a
list of character codes — symbol cleanup, then wordwise Title Case. -/
def sanitizeCodes (l : List Nat) : List Nat :=
  unwords ((splitWords (cleanCodes l)).map titleWord)

/-- Modelled from the spec: the standalone sanitization function on
strings required by section 4.1. -/
def sanitize_title (s : String) : String :=
  String.mk (((sanitizeCodes (s.data.map Char.toNat))).map Char.ofNat)

/-! ## Python exceptions -/

/-- Python exceptions relevant to the pipeline, identified by type and
message. -/
inductive PyExc
  | runtimeError (msg : String)
  | fileNotFoundError (msg : String)
  | valueError (msg : String)
  deriving DecidableEq, Repr

/-! ## Extraction adapter: generate_bookmarks_ai -/

/-- The brace-open character, code 123. -/
def braceOpen : Char := Char.ofNat 123

/-- The brace-close character, code 125. -/
def braceClose : Char := Char.ofNat 125

/-- Python str.find for a single character: index of the first
occurrence, none when absent. -/
def findChar (c : Char) (l : List Char) : Option Nat := l.findIdx? (· = c)

/-- Python str.rfind for a single character: index of the last
occurrence, none when absent. -/
def rfindChar (c : Char) (l : List Char) : Option Nat :=
  match findChar c l.reverse with
  | none => none
  | some i => some (l.length - 1 - i)

/-- Lines 620-630 of generate_bookmarks_ai: locate the first brace-open
and the last brace-close of the response text and cut out that span;
none models the ValueError raised when either index is missing or the
close comes before the open. -/
def extractJsonSpan (l : List Char) : Option (List Char) :=
  match findChar braceOpen l, rfindChar braceClose l with
  | some s, some e => if e < s then none else some ((l.drop s).take (e + 1 - s))
  | _, _ => none

/-- One input image as seen by generate_bookmarks_ai: whether
os.path.exists succeeds and whether Pillow or the file extension can
determine a MIME type. -/
structure ImgFile where
  present : Bool
  mimeKnown : Bool
  deriving DecidableEq, Repr

/-- Lines 542-566: the images surviving the preparation loop (missing
files and files whose MIME type cannot be determined are skipped with a
warning). -/
def prepareParts (imgs : List ImgFile) : List ImgFile :=
  imgs.filter (fun i => i.present && i.mimeKnown)

/-- The request sent to the extraction service: the page count embedded
in the formatted instruction text (actual_total_pages, line 537) and
the number of image parts attached to the call. -/
structure AiRequest where
  declaredPages : Nat
  partsSent : Nat
  deriving DecidableEq, Repr

/-- Failure outcomes of generate_bookmarks_ai. -/
inductive AiErr
  | noImages
  | noParts
  | emptyResponse
  | jsonBoundary
  | jsonParse
  deriving DecidableEq, Repr

/-- Shallow embedding of generate_bookmarks_ai (lines 513-650).  The
external service is a function from the request to the optional
response text (none models a blocked or empty response) and `parse`
embeds json.loads (none models a raised JSONDecodeError).  On success
the source returns the parsed data with no further validation; the
embedding additionally returns the request that was sent so that its
fields can be specified. -/
def generate_bookmarks_ai {J : Type} (imgs : List ImgFile)
    (service : AiRequest → Option (List Char))
    (parse : List Char → Option J) : Except AiErr (AiRequest × J) :=
  if imgs.isEmpty then .error .noImages
  else
    let parts := prepareParts imgs
    if parts.isEmpty then .error .noParts
    else
      let req : AiRequest := ⟨imgs.length, parts.length⟩
      match service req with
      | none => .error .emptyResponse
      | some raw =>
        match extractJsonSpan raw with
        | none => .error .jsonBoundary
        | some span =>
          match parse span with
          | none => .error .jsonParse
          | some d => .ok (req, d)

/-- One page record of the response schema (Pydantic model PageDetail). -/
structure PageDetailJ where
  page_number : Int
  sheet_number : String
  sheet_title : String
  deriving DecidableEq, Repr

/-- The response envelope of the schema (Pydantic model ExtractedData). -/
structure ExtractedDataJ where
  total_num_pages_all_parts : Int
  pages : List PageDetailJ
  deriving DecidableEq, Repr

/-! ## Rasterizer adapter: pdf_to_images -/

/-- Decimal digit characters of k, big-endian, with structural fuel so
that the kernel can evaluate it (for k = 0 the list is empty, which
pad4 below fills with zeros, matching the %04d rendering "0000"). -/
def decDigitsCore : Nat → Nat → List Char
  | _, 0 => []
  | 0, _ + 1 => []
  | fuel + 1, k + 1 =>
    decDigitsCore fuel ((k + 1) / 10) ++ [Char.ofNat (48 + (k + 1) % 10)]

/-- Decimal digit characters of a natural number, big-endian. -/
def decDigits (k : Nat) : List Char := decDigitsCore k k

/-- Python %04d: the decimal form of k padded with zeros to at least
four characters. -/
def pad4 (k : Nat) : List Char :=
  List.replicate (4 - (decDigits k).length) '0' ++ decDigits k

/-- The basename Ghostscript gives the image of page k under the output
pattern page_%04d.png. -/
def imageName (k : Nat) : List Char :=
  'p' :: 'a' :: 'g' :: 'e' :: '_' :: (pad4 k ++ ('.' :: 'p' :: 'n' :: 'g' :: []))

/-- The basenames produced for an N-page PDF, in page order. -/
def gsImages (N : Nat) : List (List Char) :=
  (List.range N).map (fun i => imageName (i + 1))

/-- The longest digit run at the head of the list together with the
remainder: the deterministic reading of the greedy digit match of the
sort-key regex. -/
def takeDigits : List Char → (List Char × List Char)
  | [] => ([], [])
  | c :: cs => if c.isDigit then let p := takeDigits cs; (c :: p.1, p.2) else ([], c :: cs)

/-- Numeric value of a big-endian list of decimal digit characters. -/
def digitsVal (ds : List Char) : Nat :=
  ds.foldl (fun acc c => 10 * acc + (c.toNat - 48)) 0

/-- The regex search inside sort_key of pdf_to_images: scan left to
right for a position matching page_ followed by one or more digits
followed by .png at the end of the name, and return the digits'
value. -/
def searchPageNum : List Char → Option Nat
  | [] => none
  | c :: rest =>
    match rest with
    | b1 :: b2 :: b3 :: b4 :: r =>
      if c = 'p' ∧ b1 = 'a' ∧ b2 = 'g' ∧ b3 = 'e' ∧ b4 = '_' then
        let p := takeDigits r
        if p.1 ≠ [] ∧ p.2 = '.' :: 'p' :: 'n' :: 'g' :: [] then some (digitsVal p.1)
        else searchPageNum rest
      else searchPageNum rest
    | _ => searchPageNum rest

/-- sort_key of pdf_to_images (lines 486-490): the embedded page
number, or -1 when the pattern does not match. -/
def sort_key (name : List Char) : Int :=
  match searchPageNum name with
  | some k => (k : Int)
  | none => -1

/-- The comparison used to model image_files.sort(key=sort_key). -/
def byKey (a b : List Char) : Prop := sort_key a ≤ sort_key b

instance : DecidableRel byKey :=
  fun a b => inferInstanceAs (Decidable (sort_key a ≤ sort_key b))

instance : IsTotal (List Char) byKey :=
  ⟨fun a b => Int.le_total (sort_key a) (sort_key b)⟩

instance : IsTrans (List Char) byKey :=
  ⟨fun _ _ _ h h' => le_trans h h'⟩

/-- The strict-or-equal comparison on file names induced by sort_key,
used to state uniqueness of the sorted order. -/
def byKeyStrict (a b : List Char) : Prop := sort_key a < sort_key b ∨ a = b

instance : IsAntisymm (List Char) byKeyStrict :=
  ⟨fun a b h1 h2 => by
    rcases h1 with h1 | h1
    · rcases h2 with h2 | h2
      · exact absurd (lt_trans h1 h2) (lt_irrefl _)
      · exact h2.symm
    · exact h1⟩

/-- Lines 479-494 of pdf_to_images, after the Ghostscript run: fail if
no output files matched the glob pattern, else sort the matched files
numerically by sort_key. -/
def pdf_to_images_collect (files : List (List Char)) : Except PyExc (List (List Char)) :=
  if files.isEmpty then
    .error (.runtimeError "Ghostscript ran successfully but no images found")
  else .ok (files.insertionSort byKey)

/-! ## Bookmark compiler: convert_ai_response_to_pdftk -/

/-- One entry of the parsed pages list as accessed by
convert_ai_response_to_pdftk: every key may be absent from the dict. -/
structure PageJson where
  page_number : Option Int
  sheet_number : Option String
  sheet_title : Option String
  deriving DecidableEq, Repr

/-- Lines 683-699: the pdftk block emitted for one page entry; none
models the KeyError branch that skips an entry missing page_number. -/
def pdftkEntry (rec : PageJson) : Option String :=
  match rec.page_number with
  | none => none
  | some p =>
    some ("BookmarkBegin\nBookmarkTitle: " ++ rec.sheet_number.getD "MISSING_SHEET_NUM"
      ++ " " ++ rec.sheet_title.getD "MISSING_SHEET_TITLE"
      ++ "\nBookmarkLevel: 1\nBookmarkPageNumber: " ++ toString p ++ "\n\n")

/-- convert_ai_response_to_pdftk (lines 653-725).  The input none
models a response dict whose pages key is missing or not a list; the
result some content models the True branch together with the file
content written, and none models the False branch (no file written). -/
def convert_ai_response_to_pdftk (pages : Option (List PageJson)) : Option String :=
  match pages with
  | none => none
  | some pagesData =>
    if pagesData.isEmpty then some ""
    else
      let entries := pagesData.filterMap pdftkEntry
      if entries.isEmpty then some ""
      else some (String.join entries)

/-- A bookmark block in structured form, used to specify the emitted
text. -/
structure BookmarkBlock where
  title : String
  level : Nat
  page : Int
  deriving DecidableEq, Repr

/-- Rendering of a structured bookmark block into the pdftk text
format. -/
def renderBlock (b : BookmarkBlock) : String :=
  "BookmarkBegin\nBookmarkTitle: " ++ b.title ++ "\nBookmarkLevel: "
    ++ toString b.level ++ "\nBookmarkPageNumber: " ++ toString b.page ++ "\n\n"

/-! ## Bookmark applier: apply_bookmarks -/

/-- Outcome of the subprocess.run invocation of pdftk: normal exit
zero, CalledProcessError with a nonzero code, or TimeoutExpired. -/
inductive ToolRun
  | success
  | exitNonzero (code : Nat)
  | timedOut
  deriving DecidableEq, Repr

/-- State of the output path after the tool ran. -/
structure OutFile where
  present : Bool
  size : Nat
  deriving DecidableEq, Repr

/-- Filesystem actions apply_bookmarks may perform on the output path. -/
inductive FsAction
  | removeOutput
  deriving DecidableEq, Repr

/-- apply_bookmarks (lines 728-798): precondition checks raise; after a
clean tool exit the output must exist and be non-empty to report True,
and in the exit-zero-but-bad-output branch an existing (necessarily
empty) output file is removed; a CalledProcessError or TimeoutExpired
reports False directly.  The result pairs the reported Bool with the
filesystem actions performed. -/
def apply_bookmarks (pdftkPathGiven inputPdfExists bookmarkFileExists : Bool)
    (run : ToolRun) (out : OutFile) : Except PyExc (Bool × List FsAction) :=
  if ¬ pdftkPathGiven then .error (.valueError "PDFtk path is not provided.")
  else if ¬ inputPdfExists then .error (.fileNotFoundError "Input PDF for bookmarking not found")
  else if ¬ bookmarkFileExists then .error (.fileNotFoundError "Bookmark data file not found")
  else .ok (match run with
    | .success =>
      if out.present ∧ 0 < out.size then (true, [])
      else (false, if out.present then [.removeOutput] else [])
    | _ => (false, []))

/-! ## Workflow orchestrator: process_pdf_workflow -/

/-- Pipeline stages of process_pdf_workflow in source order; saveResp
is the warn-only raw-response write of lines 860-866, and cleanup is
the finally block, recording whether shutil.rmtree removed the
directory. -/
inductive Stage
  | raster
  | extract
  | saveResp
  | convert
  | applyBk
  | cleanup (removed : Bool)
  deriving DecidableEq, Repr

/-- Whether a stage is the cleanup action. -/
def Stage.isCleanup : Stage → Bool
  | .cleanup _ => true
  | _ => false

/-- The environment of one process_pdf_workflow run: the outcome each
stage would produce if reached.  The raw-response write is not a
parameter because its failure only logs a warning and affects nothing. -/
structure WorkflowEnv (A B : Type) where
  rasterize : Except PyExc A
  extractAi : A → Except PyExc B
  convertOk : B → Bool
  applyOk : Bool
  tempDirExists : Bool
  rmtreeOk : Bool
  finalOutputPath : String

/-- The try block of process_pdf_workflow (lines 836-902): the four
stages in sequence, each failure aborting the rest; the except block
logs and re-raises the caught exception unchanged. -/
def workflowTry {A B : Type} (env : WorkflowEnv A B) : Except PyExc String × List Stage :=
  match env.rasterize with
  | .error e => (.error e, [.raster])
  | .ok imgs =>
    match env.extractAi imgs with
    | .error e => (.error e, [.raster, .extract])
    | .ok d =>
      if env.convertOk d then
        if env.applyOk then
          (.ok env.finalOutputPath, [.raster, .extract, .saveResp, .convert, .applyBk])
        else
          (.error (.runtimeError "Failed to apply PDFtk bookmarks to the PDF."),
            [.raster, .extract, .saveResp, .convert, .applyBk])
      else
        (.error (.runtimeError "Failed to convert AI response to PDFtk bookmark format."),
          [.raster, .extract, .saveResp, .convert])

/-- process_pdf_workflow (lines 805-918): the try/except/finally
structure.  The finally block runs exactly once after the try block,
whatever its outcome; rmtree runs when the directory exists and an
OSError from it is caught and logged, never raised, so the first
component never depends on rmtreeOk. -/
def process_pdf_workflow {A B : Type} (env : WorkflowEnv A B) :
    Except PyExc String × List Stage :=
  let r := workflowTry env
  (r.1, r.2 ++ [.cleanup (env.tempDirExists && env.rmtreeOk)])

/-! ## Lemmas about the sanitization rules -/

theorem keptCode_iff (n : Nat) :
    keptCode n = true ↔
      ((65 ≤ n ∧ n ≤ 90) ∨ (97 ≤ n ∧ n ≤ 122) ∨ (48 ≤ n ∧ n ≤ 57) ∨ n = 32 ∨ n = 45) := by
  simp [keptCode]

theorem cleanCode_of_kept {n : Nat} (h : keptCode n = true) : cleanCode n = [n] := by
  have h' := (keptCode_iff n).mp h
  simp only [cleanCode]
  rw [if_neg (by omega), if_neg (by omega), if_pos h]

theorem keptCode_of_mem_cleanCode {n m : Nat} (h : m ∈ cleanCode n) : keptCode m = true := by
  simp only [cleanCode] at h
  split_ifs at h with h1 h2 h3
  · rw [List.mem_singleton] at h
    subst h
    decide
  · simp only [List.mem_cons, List.not_mem_nil, or_false] at h
    rcases h with h | h | h <;> (subst h; decide)
  · rw [List.mem_singleton] at h
    subst h
    exact h3
  · exact absurd h (List.not_mem_nil m)

theorem cleanCodes_of_kept {l : List Nat} (h : ∀ m ∈ l, keptCode m = true) :
    cleanCodes l = l := by
  induction l with
  | nil => rfl
  | cons a l ih =>
    have ha := cleanCode_of_kept (h a (List.mem_cons_self a l))
    have hl := ih (fun m hm => h m (List.mem_cons_of_mem a hm))
    simp only [cleanCodes, List.flatMap_cons] at hl ⊢
    rw [ha, hl]
    rfl

theorem keptCode_of_mem_cleanCodes {l : List Nat} {m : Nat} (h : m ∈ cleanCodes l) :
    keptCode m = true := by
  simp only [cleanCodes, List.mem_flatMap] at h
  obtain ⟨n, _, hm⟩ := h
  exact keptCode_of_mem_cleanCode hm

theorem lowerCode_lowerCode (n : Nat) : lowerCode (lowerCode n) = lowerCode n := by
  simp only [lowerCode]
  split_ifs <;> omega

theorem lowerCode_upperCode (n : Nat) : lowerCode (upperCode n) = lowerCode n := by
  simp only [lowerCode, upperCode]
  split_ifs <;> omega

theorem keptCode_lowerCode {n : Nat} (h : keptCode n = true) : keptCode (lowerCode n) = true := by
  rw [keptCode_iff] at h ⊢
  simp only [lowerCode]
  split_ifs <;> omega

theorem keptCode_upperCode {n : Nat} (h : keptCode n = true) : keptCode (upperCode n) = true := by
  rw [keptCode_iff] at h ⊢
  simp only [upperCode]
  split_ifs <;> omega

theorem lowerCode_ne_space {n : Nat} (h : n ≠ 32) : lowerCode n ≠ 32 := by
  simp only [lowerCode]
  split_ifs <;> omega

theorem upperCode_ne_space {n : Nat} (h : n ≠ 32) : upperCode n ≠ 32 := by
  simp only [upperCode]
  split_ifs <;> omega

theorem splitWords_ne_nil (l : List Nat) : splitWords l ≠ [] := by
  cases l with
  | nil => simp [splitWords]
  | cons c cs =>
    simp only [splitWords]
    split_ifs <;> simp

theorem space_notMem_splitWords :
    ∀ (l : List Nat) (w : List Nat), w ∈ splitWords l → (32 : Nat) ∉ w := by
  intro l
  induction l with
  | nil =>
    intro w hw
    simp only [splitWords, List.mem_singleton] at hw
    subst hw
    exact List.not_mem_nil 32
  | cons c cs ih =>
    intro w hw
    simp only [splitWords] at hw
    by_cases hc : c = 32
    · rw [if_pos hc] at hw
      rcases List.mem_cons.mp hw with h | h
      · subst h
        exact List.not_mem_nil 32
      · exact ih w h
    · rw [if_neg hc] at hw
      rcases hsp : splitWords cs with _ | ⟨w1, ws⟩
      · exact absurd hsp (splitWords_ne_nil cs)
      · rw [hsp] at hw
        rcases List.mem_cons.mp hw with h | h
        · subst h
          intro hmem
          rcases List.mem_cons.mp hmem with h1 | h1
          · exact hc h1.symm
          · exact ih w1 (hsp ▸ List.mem_cons_self w1 ws) h1
        · exact ih w (hsp ▸ List.mem_cons_of_mem w1 h)

theorem mem_of_mem_splitWords :
    ∀ (l w : List Nat) (m : Nat), w ∈ splitWords l → m ∈ w → m ∈ l := by
  intro l
  induction l with
  | nil =>
    intro w m hw hm
    simp only [splitWords, List.mem_singleton] at hw
    subst hw
    exact absurd hm (List.not_mem_nil m)
  | cons c cs ih =>
    intro w m hw hm
    simp only [splitWords] at hw
    by_cases hc : c = 32
    · rw [if_pos hc] at hw
      rcases List.mem_cons.mp hw with h | h
      · subst h
        exact absurd hm (List.not_mem_nil m)
      · exact List.mem_cons_of_mem c (ih w m h hm)
    · rw [if_neg hc] at hw
      rcases hsp : splitWords cs with _ | ⟨w1, ws⟩
      · exact absurd hsp (splitWords_ne_nil cs)
      · rw [hsp] at hw
        rcases List.mem_cons.mp hw with h | h
        · subst h
          rcases List.mem_cons.mp hm with h1 | h1
          · subst h1
            exact List.mem_cons_self m cs
          · exact List.mem_cons_of_mem c
              (ih w1 m (hsp ▸ List.mem_cons_self w1 ws) h1)
        · exact List.mem_cons_of_mem c
            (ih w m (hsp ▸ List.mem_cons_of_mem w1 h) hm)

theorem splitWords_no_space {w : List Nat} (h : (32 : Nat) ∉ w) : splitWords w = [w] := by
  induction w with
  | nil => rfl
  | cons c cs ih =>
    have hc : ¬ c = 32 := fun he => h (he ▸ List.mem_cons_self c cs)
    have hcs := ih (fun hm => h (List.mem_cons_of_mem c hm))
    simp only [splitWords, if_neg hc, hcs]
    rfl

theorem splitWords_word_space {w : List Nat} (rest : List Nat) (h : (32 : Nat) ∉ w) :
    splitWords (w ++ 32 :: rest) = w :: splitWords rest := by
  induction w with
  | nil => simp [splitWords]
  | cons c cs ih =>
    have hc : ¬ c = 32 := fun he => h (he ▸ List.mem_cons_self c cs)
    have hcs := ih (fun hm => h (List.mem_cons_of_mem c hm))
    rw [List.cons_append, splitWords, if_neg hc, hcs]
    rfl

theorem splitWords_unwords :
    ∀ (ws : List (List Nat)), ws ≠ [] → (∀ w ∈ ws, (32 : Nat) ∉ w) →
      splitWords (unwords ws) = ws := by
  intro ws
  induction ws with
  | nil => intro h; exact absurd rfl h
  | cons w ws ih =>
    intro _ h
    cases ws with
    | nil =>
      show splitWords (unwords [w]) = [w]
      rw [unwords]
      exact splitWords_no_space (h w (List.mem_cons_self w []))
    | cons w2 ws2 =>
      have hu : unwords (w :: w2 :: ws2) = w ++ 32 :: unwords (w2 :: ws2) := rfl
      show splitWords (unwords (w :: w2 :: ws2)) = w :: w2 :: ws2
      rw [hu, splitWords_word_space (unwords (w2 :: ws2)) (h w (List.mem_cons_self w _))]
      rw [ih (List.cons_ne_nil w2 ws2) (fun v hv => h v (List.mem_cons_of_mem w hv))]

theorem lowerWord_lowerWord (w : List Nat) : lowerWord (lowerWord w) = lowerWord w := by
  simp only [lowerWord, List.map_map]
  apply List.map_congr_left
  intro a _
  exact lowerCode_lowerCode a

theorem lowerWord_capWord_lowerWord (w : List Nat) :
    lowerWord (capWord (lowerWord w)) = lowerWord w := by
  cases w with
  | nil => rfl
  | cons c cs =>
    show lowerCode (upperCode (lowerCode c)) :: (cs.map lowerCode).map lowerCode
        = lowerCode c :: cs.map lowerCode
    rw [lowerCode_upperCode, lowerCode_lowerCode, List.map_map]
    congr 1
    apply List.map_congr_left
    intro a _
    exact lowerCode_lowerCode a

theorem titleWord_titleWord (w : List Nat) : titleWord (titleWord w) = titleWord w := by
  by_cases h : lowerWord w ∈ smallWords
  · have h1 : titleWord w = lowerWord w := by rw [titleWord, if_pos h]
    rw [h1, titleWord, lowerWord_lowerWord, if_pos h]
  · have h1 : titleWord w = capWord (lowerWord w) := by rw [titleWord, if_neg h]
    rw [h1, titleWord, lowerWord_capWord_lowerWord, if_neg h]

theorem space_notMem_lowerWord {w : List Nat} (h : (32 : Nat) ∉ w) :
    (32 : Nat) ∉ lowerWord w := by
  simp only [lowerWord, List.mem_map]
  rintro ⟨a, ha, hae⟩
  exact lowerCode_ne_space (fun he => h (he ▸ ha)) hae

theorem space_notMem_titleWord {w : List Nat} (h : (32 : Nat) ∉ w) :
    (32 : Nat) ∉ titleWord w := by
  have hl := space_notMem_lowerWord h
  rw [titleWord]
  split_ifs
  · exact hl
  · cases hw : lowerWord w with
    | nil => simp [capWord]
    | cons c cs =>
      rw [hw] at hl
      intro hmem
      rcases List.mem_cons.mp hmem with h1 | h1
      · exact upperCode_ne_space
          (fun he => hl (he ▸ List.mem_cons_self c cs)) h1.symm
      · exact hl (List.mem_cons_of_mem c h1)

theorem kept_titleWord {w : List Nat} (h : ∀ m ∈ w, keptCode m = true) :
    ∀ m ∈ titleWord w, keptCode m = true := by
  have hlow : ∀ m ∈ lowerWord w, keptCode m = true := by
    intro m hm
    rcases List.mem_map.mp hm with ⟨a, ha, rfl⟩
    exact keptCode_lowerCode (h a ha)
  intro m hm
  rw [titleWord] at hm
  split_ifs at hm
  · exact hlow m hm
  · revert hm
    cases hw : lowerWord w with
    | nil => intro hm; exact absurd hm (List.not_mem_nil m)
    | cons c cs =>
      intro hm
      rcases List.mem_cons.mp hm with h1 | h1
      · subst h1
        exact keptCode_upperCode (hlow c (hw ▸ List.mem_cons_self c cs))
      · exact hlow m (hw ▸ List.mem_cons_of_mem c h1)

theorem mem_unwords :
    ∀ (ws : List (List Nat)) (m : Nat), m ∈ unwords ws → m = 32 ∨ ∃ w ∈ ws, m ∈ w := by
  intro ws
  induction ws with
  | nil =>
    intro m hm
    exact absurd hm (List.not_mem_nil m)
  | cons w ws ih =>
    intro m hm
    cases ws with
    | nil =>
      rw [unwords] at hm
      exact Or.inr ⟨w, List.mem_cons_self w [], hm⟩
    | cons w2 ws2 =>
      have hu : unwords (w :: w2 :: ws2) = w ++ 32 :: unwords (w2 :: ws2) := rfl
      rw [hu] at hm
      rcases List.mem_append.mp hm with h | h
      · exact Or.inr ⟨w, List.mem_cons_self w _, h⟩
      · rcases List.mem_cons.mp h with h1 | h1
        · exact Or.inl h1
        · rcases ih m h1 with h2 | ⟨v, hv, hmv⟩
          · exact Or.inl h2
          · exact Or.inr ⟨v, List.mem_cons_of_mem w hv, hmv⟩

theorem kept_sanitizeCodes (l : List Nat) : ∀ m ∈ sanitizeCodes l, keptCode m = true := by
  intro m hm
  simp only [sanitizeCodes] at hm
  rcases mem_unwords _ m hm with h32 | ⟨w, hw, hmw⟩
  · subst h32
    decide
  · rcases List.mem_map.mp hw with ⟨w0, hw0, rfl⟩
    refine kept_titleWord ?_ m hmw
    intro m1 hm1
    exact keptCode_of_mem_cleanCodes (mem_of_mem_splitWords _ _ m1 hw0 hm1)

theorem sanitizeCodes_idem (l : List Nat) : sanitizeCodes (sanitizeCodes l) = sanitizeCodes l := by
  have hclean : cleanCodes (sanitizeCodes l) = sanitizeCodes l :=
    cleanCodes_of_kept (kept_sanitizeCodes l)
  have hwords : ∀ w ∈ (splitWords (cleanCodes l)).map titleWord, (32 : Nat) ∉ w := by
    intro w hw
    rcases List.mem_map.mp hw with ⟨w0, hw0, rfl⟩
    exact space_notMem_titleWord (space_notMem_splitWords _ _ hw0)
  have hne : (splitWords (cleanCodes l)).map titleWord ≠ [] := by
    intro hcon
    exact splitWords_ne_nil (cleanCodes l) (List.map_eq_nil_iff.mp hcon)
  have hmap : ((splitWords (cleanCodes l)).map titleWord).map titleWord
      = (splitWords (cleanCodes l)).map titleWord := by
    rw [List.map_map]
    apply List.map_congr_left
    intro w _
    exact titleWord_titleWord w
  show unwords ((splitWords (cleanCodes (sanitizeCodes l))).map titleWord) = sanitizeCodes l
  rw [hclean]
  show unwords ((splitWords (unwords ((splitWords (cleanCodes l)).map titleWord))).map titleWord)
      = sanitizeCodes l
  rw [splitWords_unwords _ hne hwords, hmap]
  rfl

theorem toNat_ofNat_ascii {m : Nat} (h : m < 55296) : (Char.ofNat m).toNat = m := by
  rw [Char.ofNat, dif_pos (Or.inl h)]
  rfl

theorem kept_lt {m : Nat} (h : keptCode m = true) : m < 55296 := by
  rw [keptCode_iff] at h
  omega

theorem sanitize_title_idem (s : String) :
    sanitize_title (sanitize_title s) = sanitize_title s := by
  have hkept := kept_sanitizeCodes (s.data.map Char.toNat)
  have hdata : (sanitize_title s).data.map Char.toNat
      = sanitizeCodes (s.data.map Char.toNat) := by
    show ((sanitizeCodes (s.data.map Char.toNat)).map Char.ofNat).map Char.toNat = _
    rw [List.map_map]
    have hfun : ∀ m ∈ sanitizeCodes (s.data.map Char.toNat),
        (Char.toNat ∘ Char.ofNat) m = id m := by
      intro m hm
      simp only [Function.comp_apply, id_eq]
      exact toNat_ofNat_ascii (kept_lt (hkept m hm))
    rw [List.map_congr_left hfun, List.map_id]
  show String.mk ((sanitizeCodes ((sanitize_title s).data.map Char.toNat)).map Char.ofNat)
      = sanitize_title s
  rw [hdata, sanitizeCodes_idem]
  rfl

/-! ## Lemmas about the rasterizer sort -/

theorem digitsVal_append_digit (ds : List Char) (c : Char) :
    digitsVal (ds ++ [c]) = 10 * digitsVal ds + (c.toNat - 48) := by
  simp [digitsVal, List.foldl_append]

theorem digitsVal_decDigitsCore :
    ∀ (fuel k : Nat), k ≤ fuel → digitsVal (decDigitsCore fuel k) = k := by
  intro fuel
  induction fuel with
  | zero =>
    intro k hk
    interval_cases k
    rfl
  | succ fuel ih =>
    intro k hk
    cases k with
    | zero => rfl
    | succ k =>
      have hdiv : (k + 1) / 10 ≤ fuel := by
        have h2 : (k + 1) / 10 < k + 1 := Nat.div_lt_self (Nat.succ_pos k) (by norm_num)
        omega
      rw [decDigitsCore, digitsVal_append_digit, ih _ hdiv,
        toNat_ofNat_ascii (by omega)]
      omega

theorem isDigit_digitChar {d : Nat} (h : d < 10) : (Char.ofNat (48 + d)).isDigit = true := by
  interval_cases d <;> decide

theorem isDigit_mem_decDigitsCore :
    ∀ (fuel k : Nat) (c : Char), c ∈ decDigitsCore fuel k → c.isDigit = true := by
  intro fuel
  induction fuel with
  | zero =>
    intro k c hc
    cases k <;> exact absurd hc (List.not_mem_nil c)
  | succ fuel ih =>
    intro k c hc
    cases k with
    | zero => exact absurd hc (List.not_mem_nil c)
    | succ k =>
      rw [decDigitsCore] at hc
      rcases List.mem_append.mp hc with h | h
      · exact ih _ c h
      · rw [List.mem_singleton] at h
        subst h
        exact isDigit_digitChar (Nat.mod_lt _ (by norm_num))

theorem digitsVal_pad4 (k : Nat) : digitsVal (pad4 k) = k := by
  show List.foldl _ 0 (List.replicate (4 - (decDigits k).length) '0' ++ decDigits k) = k
  rw [List.foldl_append]
  have hz : ∀ (m : Nat),
      List.foldl (fun acc c => 10 * acc + (c.toNat - 48)) 0 (List.replicate m '0') = 0 := by
    intro m
    induction m with
    | zero => rfl
    | succ m ih =>
      rw [List.replicate_succ, List.foldl_cons]
      exact ih
  rw [hz]
  exact digitsVal_decDigitsCore k k le_rfl

theorem isDigit_mem_pad4 {k : Nat} {c : Char} (h : c ∈ pad4 k) : c.isDigit = true := by
  rw [pad4] at h
  rcases List.mem_append.mp h with h | h
  · rw [List.eq_of_mem_replicate h]
    decide
  · exact isDigit_mem_decDigitsCore k k c h

theorem pad4_ne_nil (k : Nat) : pad4 k ≠ [] := by
  intro hcon
  have hlen := congrArg List.length hcon
  rw [pad4, List.length_append, List.length_replicate] at hlen
  simp only [List.length_nil] at hlen
  omega

theorem takeDigits_append {ds l : List Char} (h : ∀ c ∈ ds, c.isDigit = true)
    (hl : ∀ c, l.head? = some c → c.isDigit = false) :
    takeDigits (ds ++ l) = (ds, l) := by
  induction ds with
  | nil =>
    cases l with
    | nil => rfl
    | cons c t =>
      have hc := hl c rfl
      simp [takeDigits, hc]
  | cons c ds ih =>
    have hc := h c (List.mem_cons_self c ds)
    have hds := ih (fun a ha => h a (List.mem_cons_of_mem c ha))
    simp [takeDigits, hc, hds]

theorem searchPageNum_imageName (k : Nat) : searchPageNum (imageName k) = some k := by
  have htd : takeDigits (pad4 k ++ ('.' :: 'p' :: 'n' :: 'g' :: []))
      = (pad4 k, '.' :: 'p' :: 'n' :: 'g' :: []) := by
    refine takeDigits_append (fun c hc => isDigit_mem_pad4 hc) ?_
    intro c hc
    simp only [List.head?_cons, Option.some.injEq] at hc
    rw [← hc]
    decide
  show searchPageNum
      ('p' :: 'a' :: 'g' :: 'e' :: '_' :: (pad4 k ++ ('.' :: 'p' :: 'n' :: 'g' :: []))) = some k
  rw [searchPageNum]
  rw [if_pos (by decide)]
  simp only [htd, ne_eq]
  rw [if_pos ⟨pad4_ne_nil k, trivial⟩]
  rw [digitsVal_pad4]

theorem sort_key_imageName (k : Nat) : sort_key (imageName k) = (k : Int) := by
  rw [sort_key, searchPageNum_imageName]

theorem pairwise_lt_gsImages (N : Nat) :
    (gsImages N).Pairwise (fun a b => sort_key a < sort_key b) := by
  rw [gsImages]
  refine List.Pairwise.map _ ?_ (List.pairwise_lt_range N)
  intro i j hij
  rw [sort_key_imageName, sort_key_imageName]
  omega

theorem insertionSort_perm_gsImages {N : Nat} {files : List (List Char)}
    (hperm : files.Perm (gsImages N)) :
    files.insertionSort byKey = gsImages N := by
  have hp : (files.insertionSort byKey).Perm (gsImages N) :=
    (List.perm_insertionSort byKey files).trans hperm
  have hsorted : List.Sorted byKey (files.insertionSort byKey) :=
    List.sorted_insertionSort byKey files
  have hne : (files.insertionSort byKey).Pairwise (fun a b => sort_key a ≠ sort_key b) := by
    refine (hp.pairwise_iff ?_).mpr ?_
    · intro a b hab
      exact fun he => hab he.symm
    · exact (pairwise_lt_gsImages N).imp (fun h => ne_of_lt h)
  have hstrict : List.Sorted byKeyStrict (files.insertionSort byKey) := by
    exact (hsorted.and hne).imp (fun h => Or.inl (lt_of_le_of_ne h.1 h.2))
  exact List.eq_of_perm_of_sorted hp hstrict
    ((pairwise_lt_gsImages N).imp (fun h => Or.inl h))

/-! ## Lemmas about JSON boundary extraction -/

theorem findChar_eq_none_iff {c : Char} {l : List Char} : findChar c l = none ↔ c ∉ l := by
  rw [findChar, List.findIdx?_eq_none_iff]
  constructor
  · intro h hc
    have hx := h c hc
    simp at hx
  · intro h x hx
    simp only [decide_eq_false_iff_not]
    intro he
    subst he
    exact h hx

theorem mem_of_findChar_eq_some {c : Char} {l : List Char} {i : Nat}
    (h : findChar c l = some i) : c ∈ l := by
  rw [findChar] at h
  obtain ⟨hlt, hp, _⟩ := List.findIdx?_eq_some_iff_getElem.mp h
  have hx : l[i] = c := by simpa using hp
  rw [← hx]
  exact List.getElem_mem hlt

theorem rfindChar_eq_none_iff {c : Char} {l : List Char} : rfindChar c l = none ↔ c ∉ l := by
  rw [rfindChar]
  cases h : findChar c l.reverse with
  | none =>
    simp only [true_iff]
    have hx := findChar_eq_none_iff.mp h
    rw [List.mem_reverse] at hx
    simp [hx]
  | some i =>
    simp only []
    constructor
    · intro hcon
      exact absurd hcon (by simp)
    · intro hc
      exfalso
      have hx := mem_of_findChar_eq_some h
      rw [List.mem_reverse] at hx
      exact hc hx

theorem mem_of_rfindChar_eq_some {c : Char} {l : List Char} {i : Nat}
    (h : rfindChar c l = some i) : c ∈ l := by
  rw [rfindChar] at h
  cases hf : findChar c l.reverse with
  | none =>
    rw [hf] at h
    exact absurd h (by simp)
  | some j =>
    have hx := mem_of_findChar_eq_some hf
    rw [List.mem_reverse] at hx
    exact hx

theorem findChar_append_of_notMem {c : Char} {l1 l2 : List Char} (h : c ∉ l1) :
    findChar c (l1 ++ l2) = (findChar c l2).map (fun i => i + l1.length) := by
  rw [findChar, List.findIdx?_append]
  have h1 : l1.findIdx? (fun x => decide (x = c)) = none := by
    rw [List.findIdx?_eq_none_iff]
    intro x hx
    simp only [decide_eq_false_iff_not]
    intro he
    subst he
    exact h hx
  rw [h1, Option.none_or]
  rfl

theorem findChar_cons_self (c : Char) (l : List Char) : findChar c (c :: l) = some 0 := by
  rw [findChar]
  simp [List.findIdx?_cons]

theorem extractJsonSpan_decorated (pre core post : List Char)
    (hpre : braceOpen ∉ pre) (hpost : braceClose ∉ post)
    (hhead : core.head? = some braceOpen) (hlast : core.getLast? = some braceClose) :
    extractJsonSpan (pre ++ core ++ post) = some core := by
  have hcorene : core ≠ [] := by
    intro hcon
    subst hcon
    simp at hhead
  have hlen1 : 1 ≤ core.length := by
    cases core with
    | nil => exact absurd rfl hcorene
    | cons a t => simp
  have hfind : findChar braceOpen (pre ++ core ++ post) = some pre.length := by
    rw [List.append_assoc, findChar_append_of_notMem hpre]
    obtain ⟨t, ht⟩ : ∃ t, core = braceOpen :: t := by
      cases core with
      | nil => simp at hhead
      | cons a t =>
        simp only [List.head?_cons, Option.some.injEq] at hhead
        exact ⟨t, by rw [hhead]⟩
    rw [ht, List.cons_append, findChar_cons_self]
    simp
  have hrfind : rfindChar braceClose (pre ++ core ++ post)
      = some (pre.length + core.length - 1) := by
    rw [rfindChar]
    have hrev : (pre ++ core ++ post).reverse
        = post.reverse ++ (core.reverse ++ pre.reverse) := by
      simp [List.reverse_append, List.append_assoc]
    have hpostrev : braceClose ∉ post.reverse := by
      rw [List.mem_reverse]
      exact hpost
    obtain ⟨t, ht⟩ : ∃ t, core.reverse = braceClose :: t := by
      have hh : core.reverse.head? = some braceClose := by
        rw [List.head?_reverse]
        exact hlast
      cases hc : core.reverse with
      | nil =>
        rw [hc] at hh
        simp at hh
      | cons a t =>
        rw [hc] at hh
        simp only [List.head?_cons, Option.some.injEq] at hh
        exact ⟨t, by rw [hh]⟩
    rw [hrev, findChar_append_of_notMem hpostrev, ht, List.cons_append, findChar_cons_self]
    simp only [Option.map_some']
    congr 1
    simp only [List.length_append, List.length_reverse]
    omega
  rw [extractJsonSpan, hfind, hrfind]
  show (if pre.length + core.length - 1 < pre.length then none
      else some (List.take (pre.length + core.length - 1 + 1 - pre.length)
        (List.drop pre.length (pre ++ core ++ post)))) = some core
  rw [if_neg (by omega)]
  congr 1
  rw [List.append_assoc, List.drop_left]
  have harith : pre.length + core.length - 1 + 1 - pre.length = core.length := by omega
  rw [harith]
  exact List.take_left core post

theorem extractJsonSpan_eq_none_iff (l : List Char) :
    extractJsonSpan l = none ↔
      braceOpen ∉ l ∨ braceClose ∉ l ∨
      ∃ s e, findChar braceOpen l = some s ∧ rfindChar braceClose l = some e ∧ e < s := by
  cases hf : findChar braceOpen l with
  | none =>
    rw [extractJsonSpan, hf]
    constructor
    · intro _
      exact Or.inl (findChar_eq_none_iff.mp hf)
    · intro _
      cases rfindChar braceClose l <;> rfl
  | some s =>
    cases hr : rfindChar braceClose l with
    | none =>
      rw [extractJsonSpan, hf, hr]
      constructor
      · intro _
        exact Or.inr (Or.inl (rfindChar_eq_none_iff.mp hr))
      · intro _
        rfl
    | some e =>
      rw [extractJsonSpan, hf, hr]
      show (if e < s then none else some (List.take (e + 1 - s) (List.drop s l))) = none ↔ _
      constructor
      · intro h
        by_cases hlt : e < s
        · exact Or.inr (Or.inr ⟨s, e, rfl, rfl, hlt⟩)
        · rw [if_neg hlt] at h
          exact absurd h (by simp)
      · intro h
        rcases h with h | h | ⟨s1, e1, hs1, he1, hlt⟩
        · exact absurd (mem_of_findChar_eq_some hf) h
        · exact absurd (mem_of_rfindChar_eq_some hr) h
        · injection hs1 with hs1
          injection he1 with he1
          subst hs1
          subst he1
          rw [if_pos hlt]

/-! ## Claim theorems -/

/-- C2: the title sanitization transformation (modelled from the spec,
since the source states the rules only in the extraction-service
instruction text) is a standalone pure function that is idempotent and
maps the three listed example inputs to the listed outputs. -/
theorem sanitize_title_claim :
    (∀ s : String, sanitize_title (sanitize_title s) = sanitize_title s) ∧
    sanitize_title "Detached Garage #2 & #3 Enlarged Electrical Plans" =
      "Detached Garage 2 and 3 Enlarged Electrical Plans" ∧
    sanitize_title "3rd FLOOR BUILDING PLANS" = "3rd Floor Building Plans" ∧
    sanitize_title "Grading and SESC Plan (1 of 6)" = "Grading and Sesc Plan 1 of 6" :=
  ⟨sanitize_title_idem, by decide, by decide, by decide⟩

/-- C3: for every PDF of N pages successfully rasterized — the
Ghostscript run produced the page_%04d files for pages 1..N, collected
by glob in arbitrary order — pdf_to_images returns exactly N image
names, sorted numerically by the page index embedded in the file name,
so that the k-th returned name (0-based k) is the image of page k+1;
the statement covers every N, including N = 1 and N ≥ 100 where a
non-numeric sort of unpadded names would differ. -/
theorem pdf_to_images_claim (N : Nat) (files : List (List Char))
    (hN : 0 < N) (hperm : files.Perm (gsImages N)) :
    pdf_to_images_collect files = .ok (gsImages N) ∧
    (gsImages N).length = N ∧
    (∀ k, k < N → (gsImages N)[k]? = some (imageName (k + 1))) := by
  refine ⟨?_, by simp [gsImages], ?_⟩
  · have hne : ¬ files.isEmpty = true := by
      rw [List.isEmpty_iff]
      intro hcon
      subst hcon
      have hlen := hperm.length_eq
      simp [gsImages] at hlen
      omega
    rw [pdf_to_images_collect, if_neg hne, insertionSort_perm_gsImages hperm]
  · intro k hk
    simp [gsImages, List.getElem?_range, hk]

/-- Witness for C3: a concrete 12-page glob result in reversed order is
returned as the 12 page names in numeric page order. -/
theorem pdf_to_images_claim_witness :
    pdf_to_images_collect ((gsImages 12).reverse) = .ok (gsImages 12) ∧
    (gsImages 12).length = 12 ∧
    (∀ k, k < 12 → (gsImages 12)[k]? = some (imageName (k + 1))) :=
  pdf_to_images_claim 12 ((gsImages 12).reverse) (by decide) (by decide)

/-- C5: for every response text obtained from the service,
generate_bookmarks_ai parses exactly the span from the first brace-open
to the last brace-close: it fails with the boundary error iff no
boundary pair exists, otherwise hands exactly the extracted span to the
JSON parser, failing iff the parser fails; decoration outside a
well-bracketed core is ignored; and the boundary pair is missing
exactly when there is no brace-open, no brace-close, or the last close
precedes the first open. -/
theorem generate_bookmarks_ai_parse_claim {J : Type} (imgs : List ImgFile)
    (service : AiRequest → Option (List Char)) (parse : List Char → Option J)
    (raw : List Char)
    (h1 : imgs.isEmpty = false) (h2 : (prepareParts imgs).isEmpty = false)
    (h3 : service ⟨imgs.length, (prepareParts imgs).length⟩ = some raw) :
    (generate_bookmarks_ai imgs service parse = .error .jsonBoundary ↔
      extractJsonSpan raw = none) ∧
    (∀ span, extractJsonSpan raw = some span →
      generate_bookmarks_ai imgs service parse =
        (match parse span with
          | none => .error .jsonParse
          | some d => .ok (⟨imgs.length, (prepareParts imgs).length⟩, d))) ∧
    (∀ pre core post, braceOpen ∉ pre → braceClose ∉ post →
      core.head? = some braceOpen → core.getLast? = some braceClose →
      extractJsonSpan (pre ++ core ++ post) = some core) ∧
    (extractJsonSpan raw = none ↔
      braceOpen ∉ raw ∨ braceClose ∉ raw ∨
      ∃ s e, findChar braceOpen raw = some s ∧ rfindChar braceClose raw = some e ∧ e < s) := by
  have hgen : generate_bookmarks_ai imgs service parse =
      (match extractJsonSpan raw with
        | none => .error .jsonBoundary
        | some span =>
          match parse span with
          | none => .error .jsonParse
          | some d => .ok (⟨imgs.length, (prepareParts imgs).length⟩, d)) := by
    rw [generate_bookmarks_ai]
    rw [if_neg (by rw [h1]; exact Bool.false_ne_true)]
    rw [if_neg (by rw [h2]; exact Bool.false_ne_true)]
    show (match service ⟨imgs.length, (prepareParts imgs).length⟩ with
      | none => Except.error AiErr.emptyResponse
      | some raw =>
        match extractJsonSpan raw with
        | none => Except.error AiErr.jsonBoundary
        | some span =>
          match parse span with
          | none => Except.error AiErr.jsonParse
          | some d =>
            Except.ok ((⟨imgs.length, (prepareParts imgs).length⟩ : AiRequest), d)) = _
    rw [h3]
  refine ⟨?_, ?_,
    fun pre core post a b c d => extractJsonSpan_decorated pre core post a b c d,
    extractJsonSpan_eq_none_iff raw⟩
  · rw [hgen]
    cases hx : extractJsonSpan raw with
    | none => simp
    | some span =>
      show (match parse span with
        | none => Except.error AiErr.jsonParse
        | some d =>
          Except.ok ((⟨imgs.length, (prepareParts imgs).length⟩ : AiRequest), d))
            = Except.error AiErr.jsonBoundary ↔ some span = none
      cases hp : parse span with
      | none => simp [hp]
      | some d => simp [hp]
  · intro span hs
    rw [hgen, hs]

/-- Witness for C5: a one-image job whose response text has no braces
fails with the boundary error. -/
theorem generate_bookmarks_ai_parse_claim_witness :
    generate_bookmarks_ai [(⟨true, true⟩ : ImgFile)]
        (fun _ => some ('x' :: [])) (fun s => some s) = .error .jsonBoundary ↔
      extractJsonSpan ('x' :: []) = none :=
  (generate_bookmarks_ai_parse_claim [⟨true, true⟩] (fun _ => some ('x' :: []))
    (fun s => some s) ('x' :: []) rfl rfl rfl).1

/-- C1 counterexample: generate_bookmarks_ai performs no post-parse
validation, so a response declaring 5 total pages with page numbers
1,2,2,4 for a 4-image job is accepted (returned as parsed data), not
rejected. -/
theorem generate_bookmarks_ai_no_validation_cex :
    generate_bookmarks_ai (List.replicate 4 (⟨true, true⟩ : ImgFile))
        (fun _ => some (braceOpen :: braceClose :: []))
        (fun _ => some (⟨5, [⟨1, "A", "T1"⟩, ⟨2, "B", "T2"⟩, ⟨2, "C", "T3"⟩,
          ⟨4, "D", "T4"⟩]⟩ : ExtractedDataJ))
      = .ok (⟨4, 4⟩, ⟨5, [⟨1, "A", "T1"⟩, ⟨2, "B", "T2"⟩, ⟨2, "C", "T3"⟩, ⟨4, "D", "T4"⟩]⟩) ∧
    (⟨5, [⟨1, "A", "T1"⟩, ⟨2, "B", "T2"⟩, ⟨2, "C", "T3"⟩, ⟨4, "D", "T4"⟩]⟩ :
        ExtractedDataJ).total_num_pages_all_parts ≠ 4 :=
  ⟨rfl, by decide⟩

/-- C1 amended: the adapter performs no contract validation after
parsing — any successfully parsed response is returned as-is, whatever
its declared total or page_number multiset; only boundary or JSON
parse failures are rejected. -/
theorem generate_bookmarks_ai_no_validation {J : Type} (imgs : List ImgFile)
    (service : AiRequest → Option (List Char)) (parse : List Char → Option J)
    (raw span : List Char) (d : J)
    (h1 : imgs.isEmpty = false) (h2 : (prepareParts imgs).isEmpty = false)
    (h3 : service ⟨imgs.length, (prepareParts imgs).length⟩ = some raw)
    (h4 : extractJsonSpan raw = some span) (h5 : parse span = some d) :
    generate_bookmarks_ai imgs service parse =
      .ok (⟨imgs.length, (prepareParts imgs).length⟩, d) := by
  rw [generate_bookmarks_ai]
  rw [if_neg (by rw [h1]; exact Bool.false_ne_true)]
  rw [if_neg (by rw [h2]; exact Bool.false_ne_true)]
  show (match service ⟨imgs.length, (prepareParts imgs).length⟩ with
    | none => Except.error AiErr.emptyResponse
    | some raw =>
      match extractJsonSpan raw with
      | none => Except.error AiErr.jsonBoundary
      | some span =>
        match parse span with
        | none => Except.error AiErr.jsonParse
        | some d =>
          Except.ok ((⟨imgs.length, (prepareParts imgs).length⟩ : AiRequest), d)) = _
  rw [h3]
  show (match extractJsonSpan raw with
    | none => Except.error AiErr.jsonBoundary
    | some span =>
      match parse span with
      | none => Except.error AiErr.jsonParse
      | some d =>
        Except.ok ((⟨imgs.length, (prepareParts imgs).length⟩ : AiRequest), d)) = _
  rw [h4]
  show (match parse span with
    | none => Except.error AiErr.jsonParse
    | some d =>
      Except.ok ((⟨imgs.length, (prepareParts imgs).length⟩ : AiRequest), d)) = _
  rw [h5]

/-- Witness for C1 (amended): a 3-image job whose parsed response
declares 7 pages is returned unvalidated. -/
theorem generate_bookmarks_ai_no_validation_witness :
    generate_bookmarks_ai (List.replicate 3 (⟨true, true⟩ : ImgFile))
        (fun _ => some (braceOpen :: braceClose :: []))
        (fun _ => some ((7, 9) : Int × Int)) = .ok (⟨3, 3⟩, (7, 9)) :=
  generate_bookmarks_ai_no_validation (List.replicate 3 ⟨true, true⟩)
    (fun _ => some (braceOpen :: braceClose :: []))
    (fun _ => some ((7, 9) : Int × Int))
    (braceOpen :: braceClose :: []) (braceOpen :: braceClose :: []) (7, 9)
    rfl rfl rfl (by decide) rfl

/-- C10: whenever generate_bookmarks_ai succeeds, the page count
embedded in the instruction payload equals the length of the input
image-path list as given, computed before unreadable or
type-unidentifiable images are dropped, while the parts actually sent
are only the surviving images; for some inputs the request declares
more pages than the number of parts sent. -/
theorem generate_bookmarks_ai_declared_pages {J : Type} (imgs : List ImgFile)
    (service : AiRequest → Option (List Char)) (parse : List Char → Option J)
    (req : AiRequest) (d : J)
    (h : generate_bookmarks_ai imgs service parse = .ok (req, d)) :
    (req.declaredPages = imgs.length ∧ req.partsSent = (prepareParts imgs).length) ∧
    ∃ imgs2 req2,
      generate_bookmarks_ai imgs2 (fun _ => some (braceOpen :: braceClose :: []))
        (fun _ => some ()) = .ok (req2, ()) ∧ req2.partsSent < req2.declaredPages := by
  constructor
  · simp only [generate_bookmarks_ai] at h
    by_cases h1 : imgs.isEmpty
    · simp [h1] at h
    · by_cases h2 : (prepareParts imgs).isEmpty
      · simp [h1, h2] at h
      · simp only [if_neg h1, if_neg h2] at h
        cases hs : service ⟨imgs.length, (prepareParts imgs).length⟩ with
        | none => simp [hs] at h
        | some raw =>
          simp only [hs] at h
          cases hx : extractJsonSpan raw with
          | none => simp [hx] at h
          | some span =>
            simp only [hx] at h
            cases hp : parse span with
            | none => simp [hp] at h
            | some d2 =>
              simp only [hp] at h
              injection h with h
              injection h with hreq _
              rw [← hreq]
              exact ⟨rfl, rfl⟩
  · exact ⟨[⟨true, true⟩, ⟨false, true⟩, ⟨true, false⟩], ⟨3, 1⟩, rfl, by decide⟩

/-- Witness for C10: on a concrete two-image job the declared page
count is the input length and the sent parts are the surviving
images. -/
theorem generate_bookmarks_ai_declared_pages_witness :
    ((⟨2, 1⟩ : AiRequest).declaredPages =
        ([(⟨true, true⟩ : ImgFile), ⟨false, true⟩] : List ImgFile).length ∧
      (⟨2, 1⟩ : AiRequest).partsSent =
        (prepareParts [(⟨true, true⟩ : ImgFile), ⟨false, true⟩]).length) ∧
    ∃ imgs2 req2,
      generate_bookmarks_ai imgs2 (fun _ => some (braceOpen :: braceClose :: []))
        (fun _ => some ()) = .ok (req2, ()) ∧ req2.partsSent < req2.declaredPages :=
  generate_bookmarks_ai_declared_pages [⟨true, true⟩, ⟨false, true⟩]
    (fun _ => some (braceOpen :: braceClose :: [])) (fun _ => some ())
    ⟨2, 1⟩ () rfl

/-- C7: every page record processed by convert_ai_response_to_pdftk is
emitted as one block whose title is the sheet number, a single space,
then the sheet title — with explicit placeholder tokens substituted
for a missing sheet_number or sheet_title — at the fixed top level 1,
targeting the record's page_number; and the compiler reports success
(never fails the job) on every pages list. -/
theorem convert_ai_response_block_claim (rec : PageJson) (p : Int)
    (pages : List PageJson) (h : rec.page_number = some p) :
    pdftkEntry rec = some (renderBlock
      ⟨rec.sheet_number.getD "MISSING_SHEET_NUM" ++ " "
        ++ rec.sheet_title.getD "MISSING_SHEET_TITLE", 1, p⟩) ∧
    (convert_ai_response_to_pdftk (some pages)).isSome = true := by
  constructor
  · simp only [pdftkEntry, h]
    congr 1
    rw [renderBlock]
    apply String.ext
    simp only [String.data_append, List.append_assoc]
    rfl
  · simp only [convert_ai_response_to_pdftk]
    split_ifs <;> simp

/-- Witness for C7: a record with page 3 and both sheet fields missing
compiles to a block carrying both placeholder tokens at level 1. -/
theorem convert_ai_response_block_claim_witness :
    pdftkEntry ⟨some 3, none, none⟩ = some (renderBlock
      ⟨((none : Option String).getD "MISSING_SHEET_NUM") ++ " "
        ++ ((none : Option String).getD "MISSING_SHEET_TITLE"), 1, 3⟩) ∧
    (convert_ai_response_to_pdftk (some [⟨some 3, none, none⟩])).isSome = true :=
  convert_ai_response_block_claim ⟨some 3, none, none⟩ 3 [⟨some 3, none, none⟩] rfl

/-- C8: on an empty list of page records the Bookmark Compiler writes a
valid empty bookmark file (empty content, zero entries) and reports
success, not failure. -/
theorem convert_ai_response_empty_claim :
    convert_ai_response_to_pdftk (some []) = some "" := rfl

/-- The full success and removal behavior of apply_bookmarks when all
precondition checks pass, as one equation. -/
theorem apply_bookmarks_eq (run : ToolRun) (out : OutFile) :
    apply_bookmarks true true true run out =
      .ok ((if run = .success ∧ out.present = true ∧ 0 < out.size then true else false),
        (if run = .success ∧ out.present = true ∧ out.size = 0
          then [FsAction.removeOutput] else [])) := by
  rcases out with ⟨p, sz⟩
  cases run with
  | success =>
    cases p with
    | false => simp [apply_bookmarks]
    | true =>
      rcases Nat.eq_zero_or_pos sz with hz | hz
      · subst hz
        simp [apply_bookmarks]
      · simp [apply_bookmarks, hz, hz.ne']
  | exitNonzero code => simp [apply_bookmarks]
  | timedOut => simp [apply_bookmarks]

/-- C6 counterexample: after a nonzero tool exit with a zero-byte
output file present, apply_bookmarks reports failure but performs no
removal, contrary to the claim that a zero-byte output is removed on
every failing outcome. -/
theorem apply_bookmarks_no_removal_cex :
    apply_bookmarks true true true (.exitNonzero 1) ⟨true, 0⟩ = .ok (false, []) ∧
    ¬ ∃ acts, apply_bookmarks true true true (.exitNonzero 1) ⟨true, 0⟩
        = .ok (false, acts) ∧ FsAction.removeOutput ∈ acts := by
  constructor
  · rfl
  · rintro ⟨acts, h1, h2⟩
    have h0 : apply_bookmarks true true true (.exitNonzero 1) ⟨true, 0⟩
        = .ok (false, ([] : List FsAction)) := rfl
    rw [h0] at h1
    injection h1 with h1
    injection h1 with _ h1
    rw [← h1] at h2
    exact absurd h2 (List.not_mem_nil _)

/-- C6 amended: with the tool path given and both input paths existing,
apply_bookmarks reports success exactly when the tool exits zero and
the output path exists with non-zero size; on any other outcome it
reports failure, and the zero-byte-output removal happens exactly in
the branch where the tool exited zero but the existing output is
empty — after a nonzero exit or a timeout nothing is removed. -/
theorem apply_bookmarks_claim (run : ToolRun) (out : OutFile) (b : Bool)
    (acts : List FsAction)
    (h : apply_bookmarks true true true run out = .ok (b, acts)) :
    (b = true ↔ run = .success ∧ out.present = true ∧ 0 < out.size) ∧
    (acts = if run = .success ∧ out.present = true ∧ out.size = 0
      then [FsAction.removeOutput] else []) := by
  rw [apply_bookmarks_eq] at h
  injection h with h
  have hb := (congrArg Prod.fst h).symm
  have ha := (congrArg Prod.snd h).symm
  simp only at hb ha
  constructor
  · rw [hb]
    split_ifs with hc
    · simp [hc]
    · simp [hc]
  · rw [ha]

/-- Witness for C6 (amended): a clean exit with an existing 5-byte
output reports success and removes nothing. -/
theorem apply_bookmarks_claim_witness :
    ((true : Bool) = true ↔ ToolRun.success = ToolRun.success ∧
      (⟨true, 5⟩ : OutFile).present = true ∧ 0 < (⟨true, 5⟩ : OutFile).size) ∧
    (([] : List FsAction) = if ToolRun.success = ToolRun.success ∧
        (⟨true, 5⟩ : OutFile).present = true ∧ (⟨true, 5⟩ : OutFile).size = 0
      then [FsAction.removeOutput] else []) :=
  apply_bookmarks_claim ToolRun.success ⟨true, 5⟩ true [] rfl

/-- The trace of the try block is always one of four cleanup-free
stage lists. -/
theorem workflowTry_trace_cases {A B : Type} (env : WorkflowEnv A B) :
    (workflowTry env).2 = [.raster] ∨ (workflowTry env).2 = [.raster, .extract] ∨
    (workflowTry env).2 = [.raster, .extract, .saveResp, .convert] ∨
    (workflowTry env).2 = [.raster, .extract, .saveResp, .convert, .applyBk] := by
  cases hr : env.rasterize with
  | error e =>
    left
    simp only [workflowTry, hr]
  | ok a =>
    cases hx : env.extractAi a with
    | error e =>
      right
      left
      simp only [workflowTry, hr, hx]
    | ok d =>
      by_cases hc : env.convertOk d
      · by_cases ha : env.applyOk
        · right
          right
          right
          simp only [workflowTry, hr, hx, if_pos hc, if_pos ha]
        · right
          right
          right
          simp only [workflowTry, hr, hx, if_pos hc, if_neg ha]
      · right
        right
        left
        simp only [workflowTry, hr, hx, if_neg hc]

/-- The try block never emits the cleanup action. -/
theorem workflowTry_no_cleanup {A B : Type} (env : WorkflowEnv A B) :
    (workflowTry env).2.countP Stage.isCleanup = 0 := by
  rcases workflowTry_trace_cases env with h | h | h | h <;> rw [h] <;> rfl

/-- C4: in every run of process_pdf_workflow — terminating in success
or in an error at any stage — the temporary-directory teardown is
executed exactly once, as the final action; its removal outcome is
recorded in the trace, and a failing rmtree never changes the returned
result in place of the original outcome. -/
theorem process_pdf_workflow_cleanup_claim {A B : Type} (env : WorkflowEnv A B) (b : Bool) :
    ((process_pdf_workflow env).2.countP Stage.isCleanup = 1) ∧
    ((process_pdf_workflow env).2.getLast?
      = some (.cleanup (env.tempDirExists && env.rmtreeOk))) ∧
    ((process_pdf_workflow { env with rmtreeOk := b }).1 = (process_pdf_workflow env).1) := by
  refine ⟨?_, ?_, ?_⟩
  · show ((workflowTry env).2 ++ [Stage.cleanup (env.tempDirExists && env.rmtreeOk)]).countP
      Stage.isCleanup = 1
    rw [List.countP_append, workflowTry_no_cleanup]
    rfl
  · show ((workflowTry env).2 ++ [Stage.cleanup (env.tempDirExists && env.rmtreeOk)]).getLast?
      = some (Stage.cleanup (env.tempDirExists && env.rmtreeOk))
    exact List.getLast?_concat _
  · rfl

/-- C9: each stage failure of process_pdf_workflow aborts all remaining
stages and the orchestrator surfaces the originating error unchanged:
a rasterization error propagates as-is with no later stage executed,
an extraction error likewise, a compilation failure raises exactly the
conversion RuntimeError without running the applier, and an
application failure raises exactly the application RuntimeError. -/
theorem process_pdf_workflow_propagates_claim {A B : Type} (env : WorkflowEnv A B) :
    (∀ e, env.rasterize = .error e →
      (process_pdf_workflow env).1 = .error e ∧
      Stage.extract ∉ (process_pdf_workflow env).2 ∧
      Stage.convert ∉ (process_pdf_workflow env).2 ∧
      Stage.applyBk ∉ (process_pdf_workflow env).2) ∧
    (∀ a e, env.rasterize = .ok a → env.extractAi a = .error e →
      (process_pdf_workflow env).1 = .error e ∧
      Stage.convert ∉ (process_pdf_workflow env).2 ∧
      Stage.applyBk ∉ (process_pdf_workflow env).2) ∧
    (∀ a d, env.rasterize = .ok a → env.extractAi a = .ok d → env.convertOk d = false →
      (process_pdf_workflow env).1 =
        .error (.runtimeError "Failed to convert AI response to PDFtk bookmark format.") ∧
      Stage.applyBk ∉ (process_pdf_workflow env).2) ∧
    (∀ a d, env.rasterize = .ok a → env.extractAi a = .ok d → env.convertOk d = true →
      env.applyOk = false →
      (process_pdf_workflow env).1 =
        .error (.runtimeError "Failed to apply PDFtk bookmarks to the PDF.")) := by
  refine ⟨?_, ?_, ?_, ?_⟩
  · intro e hr
    have h : workflowTry env = (.error e, [.raster]) := by
      simp only [workflowTry, hr]
    have h2 : (process_pdf_workflow env).2
        = [.raster, .cleanup (env.tempDirExists && env.rmtreeOk)] := by
      show (workflowTry env).2 ++ [Stage.cleanup (env.tempDirExists && env.rmtreeOk)] = _
      rw [h]
      rfl
    refine ⟨?_, ?_, ?_, ?_⟩
    · show (workflowTry env).1 = _
      rw [h]
    · rw [h2]
      simp
    · rw [h2]
      simp
    · rw [h2]
      simp
  · intro a e hr hx
    have h : workflowTry env = (.error e, [.raster, .extract]) := by
      simp only [workflowTry, hr, hx]
    have h2 : (process_pdf_workflow env).2
        = [.raster, .extract, .cleanup (env.tempDirExists && env.rmtreeOk)] := by
      show (workflowTry env).2 ++ [Stage.cleanup (env.tempDirExists && env.rmtreeOk)] = _
      rw [h]
      rfl
    refine ⟨?_, ?_, ?_⟩
    · show (workflowTry env).1 = _
      rw [h]
    · rw [h2]
      simp
    · rw [h2]
      simp
  · intro a d hr hx hc
    have h : workflowTry env =
        (.error (.runtimeError "Failed to convert AI response to PDFtk bookmark format."),
          [.raster, .extract, .saveResp, .convert]) := by
      simp [workflowTry, hr, hx, hc]
    have h2 : (process_pdf_workflow env).2
        = [.raster, .extract, .saveResp, .convert,
            .cleanup (env.tempDirExists && env.rmtreeOk)] := by
      show (workflowTry env).2 ++ [Stage.cleanup (env.tempDirExists && env.rmtreeOk)] = _
      rw [h]
      rfl
    refine ⟨?_, ?_⟩
    · show (workflowTry env).1 = _
      rw [h]
    · rw [h2]
      simp
  · intro a d hr hx hc ha
    have h : workflowTry env =
        (.error (.runtimeError "Failed to apply PDFtk bookmarks to the PDF."),
          [.raster, .extract, .saveResp, .convert, .applyBk]) := by
      simp [workflowTry, hr, hx, hc, ha]
    show (workflowTry env).1 = _
    rw [h]

/-- Witness for C9: a run whose rasterization stage fails surfaces that
exact error and executes none of the later stages. -/
theorem process_pdf_workflow_propagates_claim_witness :
    (process_pdf_workflow (⟨.error (.runtimeError "gs failed"), fun _ => .ok (),
        fun _ => true, true, true, true, "out.pdf"⟩ : WorkflowEnv Unit Unit)).1
      = .error (.runtimeError "gs failed") ∧
    Stage.extract ∉ (process_pdf_workflow (⟨.error (.runtimeError "gs failed"),
        fun _ => .ok (), fun _ => true, true, true, true, "out.pdf"⟩ :
          WorkflowEnv Unit Unit)).2 ∧
    Stage.convert ∉ (process_pdf_workflow (⟨.error (.runtimeError "gs failed"),
        fun _ => .ok (), fun _ => true, true, true, true, "out.pdf"⟩ :
          WorkflowEnv Unit Unit)).2 ∧
    Stage.applyBk ∉ (process_pdf_workflow (⟨.error (.runtimeError "gs failed"),
        fun _ => .ok (), fun _ => true, true, true, true, "out.pdf"⟩ :
          WorkflowEnv Unit Unit)).2 :=
  (process_pdf_workflow_propagates_claim _).1 (.runtimeError "gs failed") rfl

end AutoBookmark
